import Mathlib

/-!
Shallow embedding of the ra-data-thecore data provider (src/thecore.js):
a JavaScript value model, the query-string stringify serializer the source
imports, URL construction for every CRUD verb, response decoding, and an
effect tree for the single HTTP call each verb performs.
-/

namespace ThecoreData

/-- JavaScript runtime values as the provider manipulates them: integer
numbers (ids, pagination), strings, undefined, and plain objects as ordered
key-value lists. -/
inductive JsValue where
  | num (n : Int)
  | str (s : String)
  | undef
  | obj (fields : List (String × JsValue))

/-- JavaScript truthiness for the modelled values: 0, the empty string and
undefined are falsy; objects are always truthy. -/
def truthy : JsValue → Bool
  | .num n => n != 0
  | .str s => s != ""
  | .undef => false
  | .obj _ => true

/-- JavaScript String() coercion: numbers print in decimal, strings are
themselves, undefined prints as undefined, and a plain object prints as
[object Object]. -/
def jsToString : JsValue → String
  | .num n => toString n
  | .str s => s
  | .undef => "undefined"
  | .obj _ => "[object Object]"

/-- Uppercase hexadecimal digit of a value below 16. -/
def hexDigit (n : Nat) : Char :=
  if n < 10 then Char.ofNat (48 + n) else Char.ofNat (55 + n)

/-- Lowercase hexadecimal digit of a value below 16. -/
def hexDigitLower (n : Nat) : Char :=
  if n < 10 then Char.ofNat (48 + n) else Char.ofNat (87 + n)

/-- UTF-8 bytes of a character, the bytes encodeURIComponent percent-encodes. -/
def utf8Bytes (c : Char) : List Nat :=
  let n := c.toNat
  if n < 128 then [n]
  else if n < 2048 then [192 + n / 64, 128 + n % 64]
  else if n < 65536 then [224 + n / 4096, 128 + n / 64 % 64, 128 + n % 64]
  else [240 + n / 262144, 128 + n / 4096 % 64, 128 + n / 64 % 64, 128 + n % 64]

/-- Characters strict-uri-encode leaves unescaped: encodeURIComponent's
unreserved set minus the five characters the strict wrapper re-encodes. -/
def isUnreservedStrict (c : Char) : Bool :=
  c.isAlphanum || c == '-' || c == '_' || c == '.' || c == '~'

/-- Percent-encoding of one byte, uppercase hex. -/
def percentByte (b : Nat) : List Char :=
  ['%', hexDigit (b / 16), hexDigit (b % 16)]

/-- strict-uri-encode, applied by the query-string package to every key and
value: encodeURIComponent plus escaping of exclamation, quote-like and star
characters. -/
def strictUriEncode (s : String) : String :=
  (s.data.flatMap (fun c =>
    if isUnreservedStrict c then [c] else (utf8Bytes c).flatMap percentByte)).asString

/-- JSON.stringify escaping of one character inside a string literal. -/
def jsonEscapeChar (c : Char) : List Char :=
  if c == '"' then ['\\', '"']
  else if c == '\\' then ['\\', '\\']
  else if c == '\n' then ['\\', 'n']
  else if c == '\t' then ['\\', 't']
  else if c == '\r' then ['\\', 'r']
  else if c.toNat == 8 then ['\\', 'b']
  else if c.toNat == 12 then ['\\', 'f']
  else if c.toNat < 32 then ['\\', 'u', '0', '0', hexDigitLower (c.toNat / 16), hexDigitLower (c.toNat % 16)]
  else [c]

/-- JSON.stringify of a string value: double quotes around the escaped body. -/
def jsonStringifyString (s : String) : String :=
  ("\"".data ++ s.data.flatMap jsonEscapeChar ++ "\"".data).asString

/-- True exactly on the undefined value. -/
def isUndef : JsValue → Bool
  | .undef => true
  | _ => false

mutual

/-- JSON.stringify for the modelled values; object fields holding undefined
are skipped, as JSON.stringify does. -/
def jsonStringifyValue : JsValue → String
  | .num n => toString n
  | .str s => jsonStringifyString s
  | .undef => "null"
  | .obj fields => "\x7b" ++ String.intercalate (",") (jsonFieldStrings fields) ++ "\x7d"

/-- Serialized key:value pieces of an object body, skipping undefined. -/
def jsonFieldStrings : List (String × JsValue) → List String
  | [] => []
  | (k, v) :: rest =>
    if isUndef v then jsonFieldStrings rest
    else (jsonStringifyString k ++ ":" ++ jsonStringifyValue v) :: jsonFieldStrings rest

end

/-- JavaScript String.prototype.split with a one-character separator. -/
def jsSplit (sep : Char) : List Char → List (List Char)
  | [] => [[]]
  | c :: cs =>
    if c == sep then [] :: jsSplit sep cs
    else
      match jsSplit sep cs with
      | [] => [[c]]
      | g :: gs => (c :: g) :: gs

/-- Array.prototype.pop on the groups produced by split: the last group (the
empty string on an empty array, which split never produces). -/
def jsPop : List (List Char) → List Char
  | [] => []
  | [g] => g
  | _ :: g :: gs => jsPop (g :: gs)

/-- The source's split on slash followed by Array.prototype.pop: the segment
after the last slash (the whole string when there is none). -/
def splitPop (s : String) : String :=
  (jsPop (jsSplit '/' s.data)).asString

/-- Whitespace skipped by JavaScript parseInt. -/
def jsWhitespace (c : Char) : Bool :=
  c == ' ' || c == '\t' || c == '\n' || c == '\r' || c.toNat == 11 || c.toNat == 12

/-- Optional sign consumed by parseInt. -/
def parseIntSign (cs : List Char) : Int × List Char :=
  match cs with
  | [] => (1, [])
  | c :: rest => if c == '-' then (-1, rest) else if c == '+' then (1, rest) else (1, c :: rest)

/-- Decimal value of a digit string. -/
def natFromDigits (cs : List Char) : Nat :=
  cs.foldl (fun a c => a * 10 + (c.toNat - 48)) 0

/-- JavaScript parseInt(s, 10): skip whitespace, optional sign, longest digit
prefix; none models the NaN result produced when no digit is found. -/
def parseIntJS (s : String) : Option Int :=
  let cs := s.data.dropWhile jsWhitespace
  let sc := parseIntSign cs
  let ds := sc.2.takeWhile Char.isDigit
  if ds.isEmpty then none else some (sc.1 * (natFromDigits ds : Int))

/-- Lexicographic comparison of char lists, as Array.prototype.sort compares
keys (code units; identical to code points on the ASCII keys used here). -/
def charListLt : List Char → List Char → Bool
  | [], [] => false
  | [], _ :: _ => true
  | _ :: _, [] => false
  | a :: as, b :: bs => if a < b then true else if b < a then false else charListLt as bs

/-- Insert one key-value pair into a key-sorted field list. -/
def insertSorted (x : String × JsValue) : List (String × JsValue) → List (String × JsValue)
  | [] => [x]
  | y :: ys => if charListLt y.1.data x.1.data then y :: insertSorted x ys else x :: y :: ys

/-- Sort fields by key, as query-string stringify does by default. -/
def sortByKey (l : List (String × JsValue)) : List (String × JsValue) :=
  l.foldr insertSorted []

/-- The query-string package's stringify: keys sorted, every key and value
strict-uri-encoded, undefined entries dropped, String() coercion on values
(so a nested object serializes as [object Object]; the package supports no
nesting). -/
def stringifyQS (fields : List (String × JsValue)) : String :=
  String.intercalate ("&") ((sortByKey fields).filterMap (fun kv =>
    if isUndef kv.2 then none
    else some (strictUriEncode kv.1 ++ "=" ++ strictUriEncode (jsToString kv.2))))

/-- JavaScript property assignment on an object literal: update the existing
key in place, or append a new key at the end. -/
def jsSet (obj : List (String × JsValue)) (k : String) (v : JsValue) : List (String × JsValue) :=
  match obj with
  | [] => [(k, v)]
  | kv :: rest => if kv.1 = k then (k, v) :: rest else kv :: jsSet rest k v

/-- Property lookup on an object literal. -/
def jsLookup (obj : List (String × JsValue)) (k : String) : Option JsValue :=
  match obj with
  | [] => none
  | kv :: rest => if kv.1 = k then some kv.2 else jsLookup rest k

/-- JavaScript property access json.k: undefined when the key is absent or
the value is not an object. -/
def jsGet (j : JsValue) (k : String) : JsValue :=
  match j with
  | .obj fields => (jsLookup fields k).getD JsValue.undef
  | _ => JsValue.undef

/-- computeFilters from src/thecore.js lines 41-58: build the filter object
(one key_eq entry per filter key, plus the getManyReference target_eq entry
when target and id are both truthy) and wrap it, together with the
JSON-stringified sort string, into the query object with q, page and per. -/
def computeFilters (object : List (String × JsValue)) (page perPage : Int)
    (field order : String) (target id : JsValue) : List (String × JsValue) :=
  let filters :=
    object.foldl (fun acc kv => jsSet acc (kv.1 ++ "_eq") kv.2) []
  let filters :=
    if truthy target && truthy id then jsSet filters (jsToString target ++ "_eq") id
    else filters
  let qObj :=
    filters.foldl (fun acc kv => jsSet acc kv.1 kv.2)
      [("s", JsValue.str (jsonStringifyString (field ++ " " ++ order)))]
  [("q", JsValue.obj qObj), ("page", JsValue.num page), ("per", JsValue.num perPage)]

/-- URL built by getList: base, resource, then the stringified query. -/
def getListUrl (apiUrl resource : String) (filter : List (String × JsValue))
    (page perPage : Int) (field order : String) : String :=
  apiUrl ++ "/" ++ resource ++ "?" ++
    stringifyQS (computeFilters filter page perPage field order JsValue.undef JsValue.undef)

/-- URL built by getManyReference: like getList with target and id passed on. -/
def getManyReferenceUrl (apiUrl resource : String) (filter : List (String × JsValue))
    (page perPage : Int) (field order : String) (target id : JsValue) : String :=
  apiUrl ++ "/" ++ resource ++ "?" ++
    stringifyQS (computeFilters filter page perPage field order target id)

/-- URL built by getMany: the source's loop pushing one segment per id, then
a join with ampersands. -/
def getManyUrl (apiUrl resource : String) (ids : List JsValue) : String :=
  let query := ids.foldl (fun q id => q ++ ["q[\"id_in\"][]=" ++ jsToString id]) ([] : List String)
  apiUrl ++ "/" ++ resource ++ "?" ++ String.intercalate ("&") query

/-- The ids query of updateMany and deleteMany: JSON.stringify of the ids
joined with commas. -/
def multiIdsQuery (ids : List JsValue) : List (String × JsValue) :=
  [("ids", JsValue.str (jsonStringifyString (String.intercalate (",") (ids.map jsToString))))]

/-- URL built by updateMany. -/
def updateManyUrl (apiUrl resource : String) (ids : List JsValue) : String :=
  apiUrl ++ "/" ++ resource ++ "/multi?" ++ stringifyQS (multiIdsQuery ids)

/-- URL built by deleteMany (the same construction as updateMany). -/
def deleteManyUrl (apiUrl resource : String) (ids : List JsValue) : String :=
  apiUrl ++ "/" ++ resource ++ "/multi?" ++ stringifyQS (multiIdsQuery ids)

/-- An HTTP request descriptor handed to the injected httpClient. -/
structure Request where
  url : String
  method : String
  body : Option String

/-- The httpClient success payload: response headers and decoded JSON. -/
structure Response where
  headers : List (String × String)
  json : JsValue

/-- An error thrown synchronously in provider code: the TypeError raised by
calling split on a null header value or by destructuring undefined. -/
inductive JsErr where
  | typeError

/-- How a provider operation can fail: a transport error propagated from the
httpClient, or a JavaScript error thrown by the provider itself. -/
inductive HttpErr where
  | transport (e : String)
  | js (e : JsErr)

/-- The injected httpClient: one request either fails with a transport error
or yields headers plus JSON. -/
abbrev Transport := Request → Except String Response

/-- Effect tree of a provider operation: a pure result, an HTTP call with a
continuation on its response, or a thrown error. -/
inductive HttpM (α : Type) where
  | pure (a : α)
  | call (req : Request) (k : Response → HttpM α)
  | throw (e : JsErr)

/-- Run an effect tree against a transport; a transport failure rejects the
whole operation with that error, as promise chaining does. -/
def run {α : Type} : HttpM α → Transport → Except HttpErr α
  | .pure a, _ => Except.ok a
  | .throw e, _ => Except.error (HttpErr.js e)
  | .call req k, t =>
    match t req with
    | Except.error e => Except.error (HttpErr.transport e)
    | Except.ok r => run (k r) t

/-- Requests actually issued while running against a transport: a failing
call is still an issued call, and nothing runs after it. -/
def requestsRun {α : Type} : HttpM α → Transport → List Request
  | .pure _, _ => []
  | .throw _, _ => []
  | .call req k, t =>
    req :: (match t req with
    | Except.error _ => []
    | Except.ok r => requestsRun (k r) t)

/-- Result shape of an operation: the list endpoints report data plus a total
(none modelling a NaN total), the other endpoints report data only. -/
inductive OpResult where
  | withTotal (data : JsValue) (total : Option Int)
  | dataOnly (data : JsValue)

/-- Pagination pair as destructured from the params. -/
structure Pagination where
  page : Int
  perPage : Int

/-- Sort pair as destructured from the params. -/
structure SortParam where
  field : String
  order : String

/-- Provider configuration: base URL and count header name. -/
structure Config where
  apiUrl : String
  countHeader : String

/-- ASCII lowercase of one character, for case-insensitive header names. -/
def asciiLowerChar (c : Char) : Char :=
  if c.toNat < 65 then c else if c.toNat ≤ 90 then Char.ofNat (c.toNat + 32) else c

/-- ASCII lowercase of a header name. -/
def headerNameLower (s : String) : String :=
  (s.data.map asciiLowerChar).asString

/-- Headers.get: case-insensitive name lookup, null (none) when absent. -/
def headersGet (hs : List (String × String)) (name : String) : Option String :=
  match hs with
  | [] => none
  | kv :: rest =>
    if headerNameLower kv.1 = headerNameLower name then some kv.2 else headersGet rest name

/-- Shared response decoding of getList and getManyReference: read the count
header (a null value makes the split call throw a TypeError), split on
slash, pop, parseInt base 10. -/
def listDecode (countHeader : String) (resp : Response) : HttpM OpResult :=
  match headersGet resp.headers countHeader with
  | none => HttpM.throw JsErr.typeError
  | some v => HttpM.pure (OpResult.withTotal resp.json (parseIntJS (splitPop v)))

/-- Result data of create: the submitted data spread first, then id overlaid
from the server JSON. -/
def createResult (d : List (String × JsValue)) (json : JsValue) : List (String × JsValue) :=
  jsSet d ("id") (jsGet json ("id"))

/-- Request body of create, update and updateMany: JSON.stringify of the data
wrapped in an envelope keyed by the resource name. -/
def wrapBody (resource : String) (d : List (String × JsValue)) : String :=
  jsonStringifyValue (JsValue.obj [(resource, JsValue.obj d)])

/-- The provider's operations, with the parameter shapes each destructures. -/
inductive Op where
  | getList (resource : String) (paginate : Pagination) (sort : SortParam)
      (filter : List (String × JsValue))
  | getOne (resource : String) (id : JsValue)
  | getMany (resource : String) (ids : List JsValue)
  | getManyReference (resource : String) (pagination : Pagination) (sort : SortParam)
      (filter : List (String × JsValue)) (target : JsValue) (id : JsValue)
  | create (resource : String) (data : List (String × JsValue))
  | update (resource : String) (id : JsValue) (data : List (String × JsValue))
  | updateMany (resource : String) (ids : List JsValue) (data : List (String × JsValue))
  | delete (resource : String) (id : JsValue)
  | deleteMany (resource : String) (ids : List JsValue)

/-- The data provider: each operation issues exactly the request the source
builds and decodes the response as the source's then-callback does. -/
def provider (cfg : Config) : Op → HttpM OpResult
  | .getList resource pg srt filter =>
    HttpM.call ⟨getListUrl cfg.apiUrl resource filter pg.page pg.perPage srt.field srt.order, "GET", none⟩
      (fun resp => listDecode cfg.countHeader resp)
  | .getOne resource id =>
    HttpM.call ⟨cfg.apiUrl ++ "/" ++ resource ++ "/" ++ jsToString id, "GET", none⟩
      (fun resp => HttpM.pure (OpResult.dataOnly resp.json))
  | .getMany resource ids =>
    HttpM.call ⟨getManyUrl cfg.apiUrl resource ids, "GET", none⟩
      (fun resp => HttpM.pure (OpResult.dataOnly resp.json))
  | .getManyReference resource pg srt filter target id =>
    HttpM.call ⟨getManyReferenceUrl cfg.apiUrl resource filter pg.page pg.perPage srt.field srt.order target id, "GET", none⟩
      (fun resp => listDecode cfg.countHeader resp)
  | .create resource d =>
    HttpM.call ⟨cfg.apiUrl ++ "/" ++ resource, "POST", some (wrapBody resource d)⟩
      (fun resp => HttpM.pure (OpResult.dataOnly (JsValue.obj (createResult d resp.json))))
  | .update resource id d =>
    HttpM.call ⟨cfg.apiUrl ++ "/" ++ resource ++ "/" ++ jsToString id, "PUT", some (wrapBody resource d)⟩
      (fun resp => HttpM.pure (OpResult.dataOnly resp.json))
  | .updateMany resource ids d =>
    HttpM.call ⟨updateManyUrl cfg.apiUrl resource ids, "PUT", some (wrapBody resource d)⟩
      (fun resp => HttpM.pure (OpResult.dataOnly resp.json))
  | .delete resource id =>
    HttpM.call ⟨cfg.apiUrl ++ "/" ++ resource ++ "/" ++ jsToString id, "DELETE", none⟩
      (fun resp => HttpM.pure (OpResult.dataOnly resp.json))
  | .deleteMany resource ids =>
    HttpM.call ⟨deleteManyUrl cfg.apiUrl resource ids, "DELETE", none⟩
      (fun resp => HttpM.pure (OpResult.dataOnly resp.json))

/-- The raw parameter object before destructuring; the two pagination field
names are distinct, as in the source. -/
structure RawParams where
  paginate : Option Pagination
  pagination : Option Pagination
  sort : SortParam
  filter : List (String × JsValue)
  target : JsValue
  id : JsValue

/-- getList on raw params: destructures params.paginate; an undefined value
throws a TypeError before any request is issued. -/
def getListRaw (cfg : Config) (resource : String) (p : RawParams) : HttpM OpResult :=
  match p.paginate with
  | none => HttpM.throw JsErr.typeError
  | some pg => provider cfg (Op.getList resource pg p.sort p.filter)

/-- getManyReference on raw params: destructures params.pagination. -/
def getManyReferenceRaw (cfg : Config) (resource : String) (p : RawParams) : HttpM OpResult :=
  match p.pagination with
  | none => HttpM.throw JsErr.typeError
  | some pg => provider cfg (Op.getManyReference resource pg p.sort p.filter p.target p.id)

/-- Does the first list start with the second. -/
def startsWithSeg : List Char → List Char → Bool
  | _, [] => true
  | [], _ :: _ => false
  | a :: as, b :: bs => a == b && startsWithSeg as bs

/-- Does the needle occur contiguously in the haystack. -/
def containsSegList (needle : List Char) : List Char → Bool
  | [] => startsWithSeg [] needle
  | c :: t => startsWithSeg (c :: t) needle || containsSegList needle t

/-- Substring occurrence test on strings. -/
def strContains (s sub : String) : Bool :=
  containsSegList sub.data s.data

/-! ## Helper lemmas -/

/-- Folding pushes onto an accumulator is the accumulator followed by the map. -/
theorem foldl_push_eq_map {α : Type} (f : α → String) :
    ∀ (l : List α) (acc : List String),
      l.foldl (fun q i => q ++ [f i]) acc = acc ++ l.map f
  | [], acc => by simp
  | a :: l, acc => by
    simpa [List.append_assoc] using foldl_push_eq_map f (a :: l).tail (acc ++ [f a])

/-- A decimal digit character has code point between 48 and 57. -/
theorem toNat_bounds_of_isDigit (c : Char) (h : c.isDigit = true) :
    48 ≤ c.toNat ∧ c.toNat ≤ 57 := by
  simp [Char.isDigit] at h
  exact ⟨h.1, h.2⟩

/-- A digit character differs from any character outside the digit range. -/
theorem beq_char_false_of_isDigit (c x : Char) (h : c.isDigit = true)
    (hx : x.toNat < 48 ∨ 57 < x.toNat) : (c == x) = false := by
  have hb := toNat_bounds_of_isDigit c h
  simp only [beq_eq_false_iff_ne]
  intro he
  rw [he] at hb
  omega

/-- A digit character is not parseInt whitespace. -/
theorem jsWhitespace_of_isDigit (c : Char) (h : c.isDigit = true) :
    jsWhitespace c = false := by
  have hb := toNat_bounds_of_isDigit c h
  have h1 := beq_char_false_of_isDigit c ' ' h (Or.inl (by decide))
  have h2 := beq_char_false_of_isDigit c '\t' h (Or.inl (by decide))
  have h3 := beq_char_false_of_isDigit c '\n' h (Or.inl (by decide))
  have h4 := beq_char_false_of_isDigit c '\r' h (Or.inl (by decide))
  have h5 : (c.toNat == 11) = false := by
    simp only [beq_eq_false_iff_ne]
    omega
  have h6 : (c.toNat == 12) = false := by
    simp only [beq_eq_false_iff_ne]
    omega
  simp [jsWhitespace, h1, h2, h3, h4, h5, h6]

/-- takeWhile keeps a list all of whose elements are digits. -/
theorem takeWhile_all_digits : ∀ (l : List Char), (∀ c ∈ l, Char.isDigit c = true) →
    l.takeWhile Char.isDigit = l
  | [], _ => rfl
  | c :: l, h => by
    have hc := h c (List.mem_cons_self c l)
    simp [List.takeWhile_cons, hc,
      takeWhile_all_digits l (fun x hx => h x (List.mem_cons_of_mem c hx))]

/-- parseInt on a nonempty all-digit string returns its decimal value. -/
theorem parseIntJS_digits (d : String) (hne : d.data ≠ [])
    (hd : ∀ c ∈ d.data, c.isDigit = true) :
    parseIntJS d = some ((natFromDigits d.data : Nat) : Int) := by
  rcases hcs : d.data with _ | ⟨c, rest⟩
  · exact absurd hcs hne
  · have hall : ∀ x ∈ c :: rest, Char.isDigit x = true := hcs ▸ hd
    have hc : c.isDigit = true := hall c (List.mem_cons_self c rest)
    have hws := jsWhitespace_of_isDigit c hc
    have hminus := beq_char_false_of_isDigit c '-' hc (Or.inl (by decide))
    have hplus := beq_char_false_of_isDigit c '+' hc (Or.inl (by decide))
    have htw : (c :: rest).takeWhile Char.isDigit = c :: rest := takeWhile_all_digits _ hall
    simp [parseIntJS, hcs, List.dropWhile_cons, hws, parseIntSign, hminus, hplus, htw]

/-- jsSplit never returns the empty array. -/
theorem jsSplit_ne_nil (sep : Char) : ∀ (cs : List Char), jsSplit sep cs ≠ []
  | [] => by simp [jsSplit]
  | c :: cs => by
    simp only [jsSplit]
    split
    · simp
    · split <;> simp

/-- Splitting a separator-free list yields that single group. -/
theorem jsSplit_no_sep (sep : Char) : ∀ (cs : List Char), sep ∉ cs → jsSplit sep cs = [cs]
  | [], _ => rfl
  | c :: cs, h => by
    simp only [List.mem_cons, not_or] at h
    have hc : (c == sep) = false := by
      simp only [beq_eq_false_iff_ne]
      exact fun hcc => h.1 hcc.symm
    simp [jsSplit, hc, jsSplit_no_sep sep cs h.2]

/-- If the separator occurs, the split has at least two groups. -/
theorem jsSplit_two_le_length (sep : Char) :
    ∀ (cs : List Char), sep ∈ cs → 2 ≤ (jsSplit sep cs).length
  | c :: cs, h => by
    by_cases hc : c = sep
    · have hb : (c == sep) = true := beq_iff_eq.mpr hc
      have hlen : 1 ≤ (jsSplit sep cs).length :=
        List.length_pos.mpr (jsSplit_ne_nil sep cs)
      simp only [jsSplit, hb, if_true, List.length_cons]
      omega
    · have hmem : sep ∈ cs := by
        rcases List.mem_cons.mp h with h1 | h1
        · exact absurd h1.symm hc
        · exact h1
      have hrec := jsSplit_two_le_length sep cs hmem
      have hcb : (c == sep) = false := beq_eq_false_iff_ne.mpr hc
      rcases hsp : jsSplit sep cs with _ | ⟨g, gs⟩
      · exact absurd hsp (jsSplit_ne_nil sep cs)
      · rw [hsp] at hrec
        simp only [jsSplit, hcb, Bool.false_eq_true, if_false, hsp, List.length_cons] at hrec ⊢
        omega

/-- pop ignores the head of an array with at least two elements. -/
theorem jsPop_cons_cons (a g : List Char) (gs : List (List Char)) :
    jsPop (a :: g :: gs) = jsPop (g :: gs) := rfl

/-- The popped group after the last separator does not depend on anything
before a separator. -/
theorem jsPop_jsSplit_append (sep : Char) :
    ∀ (xs ys : List Char),
      jsPop (jsSplit sep (xs ++ sep :: ys)) = jsPop (jsSplit sep ys)
  | [], ys => by
    have hne := jsSplit_ne_nil sep ys
    rcases hsp : jsSplit sep ys with _ | ⟨g, gs⟩
    · exact absurd hsp hne
    · simp [jsSplit, hsp, jsPop]
  | c :: xs, ys => by
    have hrec := jsPop_jsSplit_append sep xs ys
    by_cases hc : c = sep
    · have hb : (c == sep) = true := beq_iff_eq.mpr hc
      have hne := jsSplit_ne_nil sep (xs ++ sep :: ys)
      rcases hsp : jsSplit sep (xs ++ sep :: ys) with _ | ⟨g, gs⟩
      · exact absurd hsp hne
      · rw [hsp] at hrec
        rw [List.cons_append]
        simp only [jsSplit]
        rw [if_pos hb, hsp, jsPop_cons_cons]
        exact hrec
    · have hcb : (c == sep) = false := beq_eq_false_iff_ne.mpr hc
      have hmem : sep ∈ xs ++ sep :: ys := List.mem_append_right xs (List.mem_cons_self sep ys)
      have hlen := jsSplit_two_le_length sep (xs ++ sep :: ys) hmem
      rcases hsp : jsSplit sep (xs ++ sep :: ys) with _ | ⟨g, gs⟩
      · exact absurd hsp (jsSplit_ne_nil sep (xs ++ sep :: ys))
      · rw [hsp] at hrec hlen
        rcases gs with _ | ⟨g2, gs2⟩
        · simp at hlen
        · rw [List.cons_append]
          simp only [jsSplit]
          rw [if_neg (by simp [hcb]), hsp, jsPop_cons_cons]
          rw [jsPop_cons_cons] at hrec
          exact hrec

/-- splitPop on a value of the shape prefix/tail with a separator-free tail
returns exactly the tail. -/
theorem splitPop_append (pre d : String) (hd : ('/' : Char) ∉ d.data) :
    splitPop (pre ++ "/" ++ d) = d := by
  have hdata : (pre ++ "/" ++ d).data = pre.data ++ '/' :: d.data := by
    rw [String.data_append, String.data_append]
    simp
  rw [splitPop, hdata, jsPop_jsSplit_append, jsSplit_no_sep _ _ hd]
  rfl

/-! ## Claims -/

/-- C5: getMany builds a URL whose query string is the ids mapped in sequence
order to q["id_in"][] segments joined by ampersands; for ids 123, 124, 125
the URL contains those three segments in that order. -/
theorem getMany_url_c5 :
    (∀ (apiUrl resource : String) (ids : List JsValue),
      getManyUrl apiUrl resource ids =
        apiUrl ++ "/" ++ resource ++ "?" ++
          String.intercalate ("&") (ids.map (fun id => "q[\"id_in\"][]=" ++ jsToString id))) ∧
    strContains (getManyUrl ("http://path.to.my.api") ("posts")
        [JsValue.num 123, JsValue.num 124, JsValue.num 125])
      ("q[\"id_in\"][]=123&q[\"id_in\"][]=124&q[\"id_in\"][]=125") = true := by
  constructor
  · intro apiUrl resource ids
    simp [getManyUrl, foldl_push_eq_map]
  · decide

/-- C1 counterexample: with ids 123, 124, 125 both updateMany and deleteMany
target ids=%22123%2C124%2C125%22 (a JSON string of the comma-joined ids), and
the claimed JSON-array encoding ids=%5B123%2C124%2C125%5D appears nowhere in
the URL. -/
theorem updateMany_url_c1_counterexample :
    updateManyUrl ("http://path.to.my.api") ("posts")
        [JsValue.num 123, JsValue.num 124, JsValue.num 125] =
      "http://path.to.my.api/posts/multi?ids=%22123%2C124%2C125%22" ∧
    deleteManyUrl ("http://path.to.my.api") ("posts")
        [JsValue.num 123, JsValue.num 124, JsValue.num 125] =
      "http://path.to.my.api/posts/multi?ids=%22123%2C124%2C125%22" ∧
    strContains (updateManyUrl ("http://path.to.my.api") ("posts")
        [JsValue.num 123, JsValue.num 124, JsValue.num 125])
      ("ids=%5B123%2C124%2C125%5D") = false := by
  refine ⟨?_, ?_, ?_⟩ <;> decide

/-- C1 amended: updateMany and deleteMany with ids 123, 124, 125 target
resource/multi?ids=%22123%2C124%2C125%22 — the ids joined with commas into
one string, JSON-stringified to a quoted string and URL-encoded — and both
return the server's JSON response unchanged as their result data. -/
theorem updateMany_deleteMany_c1_amended :
    ∀ (apiUrl ch resource : String) (d : List (String × JsValue))
      (hs : List (String × String)) (j : JsValue),
      updateManyUrl apiUrl resource [JsValue.num 123, JsValue.num 124, JsValue.num 125] =
        apiUrl ++ "/" ++ resource ++ "/multi?" ++ ("ids=%22123%2C124%2C125%22") ∧
      deleteManyUrl apiUrl resource [JsValue.num 123, JsValue.num 124, JsValue.num 125] =
        apiUrl ++ "/" ++ resource ++ "/multi?" ++ ("ids=%22123%2C124%2C125%22") ∧
      run (provider ⟨apiUrl, ch⟩
            (Op.updateMany resource [JsValue.num 123, JsValue.num 124, JsValue.num 125] d))
          (fun _ => Except.ok ⟨hs, j⟩) = Except.ok (OpResult.dataOnly j) ∧
      run (provider ⟨apiUrl, ch⟩
            (Op.deleteMany resource [JsValue.num 123, JsValue.num 124, JsValue.num 125]))
          (fun _ => Except.ok ⟨hs, j⟩) = Except.ok (OpResult.dataOnly j) := by
  intro apiUrl ch resource d hs j
  have hq : stringifyQS (multiIdsQuery [JsValue.num 123, JsValue.num 124, JsValue.num 125]) =
      "ids=%22123%2C124%2C125%22" := by decide
  refine ⟨?_, ?_, rfl, rfl⟩
  · show apiUrl ++ "/" ++ resource ++ "/multi?" ++
        stringifyQS (multiIdsQuery [JsValue.num 123, JsValue.num 124, JsValue.num 125]) = _
    rw [hq]
  · show apiUrl ++ "/" ++ resource ++ "/multi?" ++
        stringifyQS (multiIdsQuery [JsValue.num 123, JsValue.num 124, JsValue.num 125]) = _
    rw [hq]

/-- C3 code bug: query-string's stringify cannot serialize the nested q
object, so on the documented example input the whole query degenerates to
page=1&per=4&q=%5Bobject%20Object%5D: no q[s] sort parameter and no k_eq
filter parameter ever reaches the URL, contrary to the source's own comment
and the spec. -/
theorem getList_url_c3_bug :
    getListUrl ("http://my.api.url/api/v2") ("users") [] 1 4 ("email") ("ASC") =
      "http://my.api.url/api/v2/users?page=1&per=4&q=%5Bobject%20Object%5D" ∧
    strContains (getListUrl ("http://my.api.url/api/v2") ("users") [] 1 4 ("email") ("ASC"))
      ("q[s]") = false ∧
    strContains (getListUrl ("http://my.api.url/api/v2") ("users")
        [("author_id", JsValue.num 12)] 1 4 ("email") ("ASC")) ("author_id_eq") = false := by
  refine ⟨?_, ?_, ?_⟩ <;> decide

/-- C6 code bug: for the documented getManyReference example (target post_id,
id 1, sort email ASC) the URL is page=1&per=4&q=%5Bobject%20Object%5D — it
contains neither the q[s] sort parameter nor the q[post_id_eq] reference
constraint, because stringify collapses the nested q object to
[object Object]. -/
theorem getManyReference_url_c6_bug :
    getManyReferenceUrl ("http://my.api.url/api/v2") ("comments") [] 1 4 ("email") ("ASC")
        (JsValue.str ("post_id")) (JsValue.num 1) =
      "http://my.api.url/api/v2/comments?page=1&per=4&q=%5Bobject%20Object%5D" ∧
    strContains (getManyReferenceUrl ("http://my.api.url/api/v2") ("comments") [] 1 4
        ("email") ("ASC") (JsValue.str ("post_id")) (JsValue.num 1)) ("q[s]") = false ∧
    strContains (getManyReferenceUrl ("http://my.api.url/api/v2") ("comments") [] 1 4
        ("email") ("ASC") (JsValue.str ("post_id")) (JsValue.num 1)) ("post_id_eq") = false := by
  refine ⟨?_, ?_, ?_⟩ <;> decide

/-- C10: when the target or the reference id is falsy (for example id 0 or
the empty string), the truthiness guard in computeFilters silently skips the
target_eq entry, so getManyReference builds exactly the query object and URL
of an unconstrained getList with the same parameters. -/
theorem getManyReference_falsy_c10 :
    ∀ (apiUrl resource : String) (object : List (String × JsValue)) (page perPage : Int)
      (field order : String) (target id : JsValue),
      truthy target = false ∨ truthy id = false →
      computeFilters object page perPage field order target id =
        computeFilters object page perPage field order JsValue.undef JsValue.undef ∧
      getManyReferenceUrl apiUrl resource object page perPage field order target id =
        getListUrl apiUrl resource object page perPage field order := by
  intro apiUrl resource object page perPage field order target id h
  have hguard : (truthy target && truthy id) = false := by
    rcases h with h | h <;> simp [h]
  have hq : computeFilters object page perPage field order target id =
      computeFilters object page perPage field order JsValue.undef JsValue.undef := by
    simp only [computeFilters]
    rw [hguard]
    simp [truthy]
  exact ⟨hq, by simp only [getManyReferenceUrl, getListUrl, hq]⟩

/-- Looking up the key just set yields the new value. -/
theorem jsLookup_jsSet_self (k : String) (v : JsValue) :
    ∀ (obj : List (String × JsValue)), jsLookup (jsSet obj k v) k = some v
  | [] => by simp [jsSet, jsLookup]
  | kv :: rest => by
    by_cases h : kv.1 = k
    · simp [jsSet, jsLookup, h]
    · simp [jsSet, jsLookup, h, jsLookup_jsSet_self k v rest]

/-- Setting one key leaves every other key's lookup unchanged. -/
theorem jsLookup_jsSet_other (k k' : String) (v : JsValue) (hne : k' ≠ k) :
    ∀ (obj : List (String × JsValue)), jsLookup (jsSet obj k v) k' = jsLookup obj k'
  | [] => by
    have hkk : ¬ k = k' := fun h => hne h.symm
    simp [jsSet, jsLookup, hkk]
  | kv :: rest => by
    have hkk : ¬ k = k' := fun h => hne h.symm
    by_cases h : kv.1 = k
    · subst h
      simp [jsSet, jsLookup, hkk]
    · simp [jsSet, jsLookup, h, jsLookup_jsSet_other k k' v hne rest]

/-- Decoding getList and getManyReference responses performs no further call. -/
theorem requestsRun_listDecode (ch : String) (resp : Response) (t : Transport) :
    requestsRun (listDecode ch resp) t = [] := by
  unfold listDecode
  cases headersGet resp.headers ch <;> rfl

/-- A single call whose continuation calls nothing issues exactly one
request on any transport. -/
theorem requestsRun_call_length {α : Type} (req : Request) (k : Response → HttpM α)
    (t : Transport) (hk : ∀ r, requestsRun (k r) t = []) :
    (requestsRun (HttpM.call req k) t).length = 1 := by
  simp only [requestsRun]
  cases t req <;> simp [hk]

/-- Every provider operation issues exactly one request, whatever the
transport answers. -/
theorem requestsRun_provider_length (cfg : Config) (op : Op) (t : Transport) :
    (requestsRun (provider cfg op) t).length = 1 := by
  cases op <;>
    exact requestsRun_call_length _ _ _ (fun r => by
      first
        | rfl
        | exact requestsRun_listDecode _ _ _)

/-- C8: every provider operation issues exactly one transport request, and a
transport failure makes the operation fail with exactly the transport's
error, with no retry and no recovery. -/
theorem transport_failure_c8 :
    ∀ (cfg : Config) (op : Op) (t : Transport) (e : String),
      (∀ req, t req = Except.error e) →
      run (provider cfg op) t = Except.error (HttpErr.transport e) ∧
      (requestsRun (provider cfg op) t).length = 1 := by
  intro cfg op t e h
  refine ⟨?_, requestsRun_provider_length cfg op t⟩
  cases op <;> simp [provider, run, h]

/-- C8 witness: a transport failing with a network error makes getOne fail
with that very error after issuing exactly one request. -/
theorem transport_failure_c8_witness :
    run (provider ⟨"http://path.to.my.api", "Content-Range"⟩
          (Op.getOne ("posts") (JsValue.num 123)))
        (fun _ => Except.error ("Network error")) =
      Except.error (HttpErr.transport ("Network error")) ∧
    (requestsRun (provider ⟨"http://path.to.my.api", "Content-Range"⟩
          (Op.getOne ("posts") (JsValue.num 123)))
        (fun _ => Except.error ("Network error"))).length = 1 :=
  transport_failure_c8 ⟨"http://path.to.my.api", "Content-Range"⟩
    (Op.getOne ("posts") (JsValue.num 123)) (fun _ => Except.error ("Network error"))
    ("Network error") (fun _ => rfl)

/-- C7: for create with local data d and a server response object carrying an
id, the result is d with the single field id overlaid from the server: the
id field equals the server's value and every other field of d is preserved. -/
theorem create_result_c7 :
    ∀ (cfg : Config) (resource : String) (d fields : List (String × JsValue))
      (v : JsValue) (hs : List (String × String)),
      jsLookup fields ("id") = some v →
      run (provider cfg (Op.create resource d))
          (fun _ => Except.ok ⟨hs, JsValue.obj fields⟩) =
        Except.ok (OpResult.dataOnly (JsValue.obj (jsSet d ("id") v))) ∧
      jsLookup (jsSet d ("id") v) ("id") = some v ∧
      (∀ k, k ≠ "id" → jsLookup (jsSet d ("id") v) k = jsLookup d k) := by
  intro cfg resource d fields v hs hv
  refine ⟨?_, jsLookup_jsSet_self _ _ _, fun k hk => jsLookup_jsSet_other _ _ _ hk _⟩
  simp [provider, run, createResult, jsGet, hv]

/-- C7 witness: data title hello with server response id 123 yields title
hello plus id 123. -/
theorem create_result_c7_witness :
    run (provider ⟨"http://path.to.my.api", "Content-Range"⟩
          (Op.create ("posts") [("title", JsValue.str ("hello"))]))
        (fun _ => Except.ok ⟨[], JsValue.obj [("id", JsValue.num 123)]⟩) =
      Except.ok (OpResult.dataOnly
        (JsValue.obj [("title", JsValue.str ("hello")), ("id", JsValue.num 123)])) :=
  (create_result_c7 ⟨"http://path.to.my.api", "Content-Range"⟩ ("posts")
    [("title", JsValue.str ("hello"))] [("id", JsValue.num 123)] (JsValue.num 123) []
    rfl).1

/-- C9: getList destructures params.paginate while getManyReference
destructures params.pagination; on a params object carrying page and perPage
only under pagination, getList throws a TypeError and issues no request,
while getManyReference proceeds and issues its single request. -/
theorem getList_paginate_c9 :
    ∀ (cfg : Config) (resource : String) (p : RawParams) (pg : Pagination) (t : Transport),
      p.paginate = none →
      p.pagination = some pg →
      getListRaw cfg resource p = HttpM.throw JsErr.typeError ∧
      run (getListRaw cfg resource p) t = Except.error (HttpErr.js JsErr.typeError) ∧
      requestsRun (getListRaw cfg resource p) t = [] ∧
      getManyReferenceRaw cfg resource p =
        provider cfg (Op.getManyReference resource pg p.sort p.filter p.target p.id) ∧
      (requestsRun (getManyReferenceRaw cfg resource p) t).length = 1 := by
  intro cfg resource p pg t h1 h2
  have hl : getListRaw cfg resource p = HttpM.throw JsErr.typeError := by
    simp [getListRaw, h1]
  have hm : getManyReferenceRaw cfg resource p =
      provider cfg (Op.getManyReference resource pg p.sort p.filter p.target p.id) := by
    simp [getManyReferenceRaw, h2]
  refine ⟨hl, ?_, ?_, hm, ?_⟩
  · rw [hl]
    rfl
  · rw [hl]
    rfl
  · rw [hm]
    exact requestsRun_provider_length cfg _ t

/-- C9 witness: on pagination-only params getList throws while
getManyReference issues one request. -/
theorem getList_paginate_c9_witness :
    getListRaw ⟨"http://path.to.my.api", "Content-Range"⟩ ("posts")
        ⟨none, some ⟨1, 4⟩, ⟨"email", "ASC"⟩, [], JsValue.str ("post_id"), JsValue.num 1⟩ =
      HttpM.throw JsErr.typeError ∧
    run (getListRaw ⟨"http://path.to.my.api", "Content-Range"⟩ ("posts")
        ⟨none, some ⟨1, 4⟩, ⟨"email", "ASC"⟩, [], JsValue.str ("post_id"), JsValue.num 1⟩)
        (fun _ => Except.error ("unreached")) = Except.error (HttpErr.js JsErr.typeError) ∧
    requestsRun (getListRaw ⟨"http://path.to.my.api", "Content-Range"⟩ ("posts")
        ⟨none, some ⟨1, 4⟩, ⟨"email", "ASC"⟩, [], JsValue.str ("post_id"), JsValue.num 1⟩)
        (fun _ => Except.error ("unreached")) = [] ∧
    getManyReferenceRaw ⟨"http://path.to.my.api", "Content-Range"⟩ ("posts")
        ⟨none, some ⟨1, 4⟩, ⟨"email", "ASC"⟩, [], JsValue.str ("post_id"), JsValue.num 1⟩ =
      provider ⟨"http://path.to.my.api", "Content-Range"⟩
        (Op.getManyReference ("posts") ⟨1, 4⟩ ⟨"email", "ASC"⟩ []
          (JsValue.str ("post_id")) (JsValue.num 1)) ∧
    (requestsRun (getManyReferenceRaw ⟨"http://path.to.my.api", "Content-Range"⟩ ("posts")
        ⟨none, some ⟨1, 4⟩, ⟨"email", "ASC"⟩, [], JsValue.str ("post_id"), JsValue.num 1⟩)
        (fun _ => Except.error ("unreached"))).length = 1 :=
  getList_paginate_c9 ⟨"http://path.to.my.api", "Content-Range"⟩ ("posts")
    ⟨none, some ⟨1, 4⟩, ⟨"email", "ASC"⟩, [], JsValue.str ("post_id"), JsValue.num 1⟩
    ⟨1, 4⟩ (fun _ => Except.error ("unreached")) rfl rfl

/-- C2 counterexample: with count header value posts 0-4/x — present but
with a non-numeric trailing segment — getList resolves successfully with a
NaN total instead of failing with a malformed-response error. -/
theorem getList_count_header_c2_counterexample :
    run (provider ⟨"http://my.api.url/api/v2", "Content-Range"⟩
          (Op.getList ("posts") ⟨1, 4⟩ ⟨"title", "ASC"⟩ []))
        (fun _ => Except.ok ⟨[("Content-Range", "posts 0-4/x")], JsValue.obj []⟩) =
      Except.ok (OpResult.withTotal (JsValue.obj []) none) := by
  rfl

/-- C2 amended: when the count header is absent the operation fails (the
TypeError from calling split on a null header value); but when the header is
present with a trailing segment parseInt cannot parse, the operation resolves
successfully with a NaN total rather than failing. -/
theorem getList_count_header_c2_amended :
    ∀ (cfg : Config) (resource : String) (pg : Pagination) (srt : SortParam)
      (filter : List (String × JsValue)) (target id : JsValue) (resp : Response),
      (headersGet resp.headers cfg.countHeader = none →
        run (provider cfg (Op.getList resource pg srt filter)) (fun _ => Except.ok resp) =
          Except.error (HttpErr.js JsErr.typeError) ∧
        run (provider cfg (Op.getManyReference resource pg srt filter target id))
            (fun _ => Except.ok resp) =
          Except.error (HttpErr.js JsErr.typeError)) ∧
      (∀ v, headersGet resp.headers cfg.countHeader = some v →
        parseIntJS (splitPop v) = none →
        run (provider cfg (Op.getList resource pg srt filter)) (fun _ => Except.ok resp) =
          Except.ok (OpResult.withTotal resp.json none) ∧
        run (provider cfg (Op.getManyReference resource pg srt filter target id))
            (fun _ => Except.ok resp) =
          Except.ok (OpResult.withTotal resp.json none)) := by
  intro cfg resource pg srt filter target id resp
  constructor
  · intro h
    constructor <;> simp [provider, run, listDecode, h]
  · intro v hv hn
    constructor <;> simp [provider, run, listDecode, hv, hn]

/-- C2 witness: an empty header list fails with the TypeError, and the
header value posts 0-4/x resolves with a NaN total. -/
theorem getList_count_header_c2_amended_witness :
    run (provider ⟨"http://my.api.url/api/v2", "Content-Range"⟩
          (Op.getList ("posts") ⟨1, 4⟩ ⟨"title", "ASC"⟩ []))
        (fun _ => Except.ok ⟨[], JsValue.obj []⟩) =
      Except.error (HttpErr.js JsErr.typeError) ∧
    run (provider ⟨"http://my.api.url/api/v2", "X-Total-Count"⟩
          (Op.getList ("posts") ⟨1, 4⟩ ⟨"title", "ASC"⟩ []))
        (fun _ => Except.ok ⟨[("X-Total-Count", "posts 0-4/x")], JsValue.obj []⟩) =
      Except.ok (OpResult.withTotal (JsValue.obj []) none) :=
  ⟨((getList_count_header_c2_amended ⟨"http://my.api.url/api/v2", "Content-Range"⟩ ("posts")
      ⟨1, 4⟩ ⟨"title", "ASC"⟩ [] JsValue.undef JsValue.undef ⟨[], JsValue.obj []⟩).1 rfl).1,
   ((getList_count_header_c2_amended ⟨"http://my.api.url/api/v2", "X-Total-Count"⟩ ("posts")
      ⟨1, 4⟩ ⟨"title", "ASC"⟩ [] JsValue.undef JsValue.undef
      ⟨[("X-Total-Count", "posts 0-4/x")], JsValue.obj []⟩).2
     ("posts 0-4/x") rfl rfl).1⟩

/-- C4: for a count header value of the documented form
resource start-end/total whose trailing segment is a decimal digit string,
the reported total is exactly that segment's decimal value — the result of
splitting on slash, taking the last segment and parsing it in base 10. -/
theorem getList_total_c4 :
    ∀ (cfg : Config) (resource : String) (pg : Pagination) (srt : SortParam)
      (filter : List (String × JsValue)) (r s e d : String) (j : JsValue),
      d.data ≠ [] →
      (∀ c ∈ d.data, c.isDigit = true) →
      run (provider cfg (Op.getList resource pg srt filter))
          (fun _ => Except.ok ⟨[(cfg.countHeader, r ++ " " ++ s ++ "-" ++ e ++ "/" ++ d)], j⟩) =
        Except.ok (OpResult.withTotal j (some ((natFromDigits d.data : Nat) : Int))) := by
  intro cfg resource pg srt filter r s e d j hne hd
  have hnosep : ('/' : Char) ∉ d.data := by
    intro hmem
    have := hd _ hmem
    simp [Char.isDigit] at this
  have hpop : splitPop (r ++ " " ++ s ++ "-" ++ e ++ "/" ++ d) = d := by
    have := splitPop_append (r ++ " " ++ s ++ "-" ++ e) d hnosep
    simpa using this
  have hparse := parseIntJS_digits d hne hd
  have hhdr : headersGet [(cfg.countHeader, r ++ " " ++ s ++ "-" ++ e ++ "/" ++ d)]
      cfg.countHeader = some (r ++ " " ++ s ++ "-" ++ e ++ "/" ++ d) := by
    simp [headersGet]
  simp [provider, run, listDecode, hhdr, hpop, hparse]

/-- C4 witness: header value posts 0-4/27 reports total 27. -/
theorem getList_total_c4_witness :
    run (provider ⟨"http://my.api.url/api/v2", "Content-Range"⟩
          (Op.getList ("posts") ⟨1, 4⟩ ⟨"title", "ASC"⟩ []))
        (fun _ => Except.ok ⟨[("Content-Range", "posts" ++ " " ++ "0" ++ "-" ++ "4" ++ "/" ++ "27")],
          JsValue.obj []⟩) =
      Except.ok (OpResult.withTotal (JsValue.obj []) (some 27)) :=
  getList_total_c4 ⟨"http://my.api.url/api/v2", "Content-Range"⟩ ("posts") ⟨1, 4⟩
    ⟨"title", "ASC"⟩ [] ("posts") ("0") ("4") ("27") (JsValue.obj [])
    (by decide) (by decide)

/-- C10 witness: target post_id with reference id 0 builds the very getList
query and URL. -/
theorem getManyReference_falsy_c10_witness :
    computeFilters [] 1 4 ("email") ("ASC") (JsValue.str ("post_id")) (JsValue.num 0) =
      computeFilters [] 1 4 ("email") ("ASC") JsValue.undef JsValue.undef ∧
    getManyReferenceUrl ("http://my.api.url/api/v2") ("comments") [] 1 4 ("email") ("ASC")
        (JsValue.str ("post_id")) (JsValue.num 0) =
      getListUrl ("http://my.api.url/api/v2") ("comments") [] 1 4 ("email") ("ASC") :=
  getManyReference_falsy_c10 ("http://my.api.url/api/v2") ("comments") [] 1 4 ("email")
    ("ASC") (JsValue.str ("post_id")) (JsValue.num 0) (Or.inr (by decide))

end ThecoreData
